import Mathlib

/-!
Verification development for the swc HTML minifier
(`crates/swc_html_minifier/src/lib.rs`).

The Rust tree transformer is shallowly embedded below.  Pure helper
functions become Lean functions with the same names (snake_case turned
into lowerCamelCase); the mutable visitor state (`current_element`,
`latest_element`, `descendant_of_pre`) becomes an explicit `MState`
record threaded through the walk; the external sub-minifiers (JS, CSS,
JSON, recursive HTML), the user-supplied regexes, and the
`swc_html_utils` element/attribute tables are black-box parameters
collected in `Externs`, exactly as §9 of the design notes prescribes
("pluggable functions `(String, kind-params) → Option<String>`").

Byte positions returned by Rust's `str::find` are modelled as character
indices over `List Char`; the two coincide on ASCII data, and every
concrete input used below is ASCII.  Rust's `.trim()` is modelled on the
ASCII white-space subset.  The tree walker recursion is driven by an
explicit fuel argument seeded generously by the entry points
(`minifyDocument`, `minifyDocumentFragment`); the fuel only exists to
make the recursion structural, it is never exhausted on the inputs the
theorems evaluate.
-/

/-- Namespaces of `swc_html_ast::Namespace` (the ones the minifier
inspects). -/
inductive Namespace where
  | html
  | svg
  | mathml
  | xlink
  | xml
  | xmlns
deriving DecidableEq, Repr

/-- CSS display classification, `enum Display` in the source. -/
inductive Display where
  | none
  | inline
  | inlineBlock
  | block
  | listItem
  | ruby
  | rubyBase
  | rubyText
  | table
  | tableColumnGroup
  | tableCaption
  | tableColumn
  | tableRow
  | tableCell
  | tableHeaderGroup
  | tableRowGroup
  | tableFooterGroup
  | contents
deriving DecidableEq, Repr

/-- `enum WhiteSpace` in the source. -/
inductive WhiteSpace where
  | pre
  | normal
deriving DecidableEq, Repr

/-- `CollapseWhitespaces` from the options module (variants as used
throughout `lib.rs`). -/
inductive CollapseWhitespaces where
  | none
  | all
  | smart
  | conservative
  | onlyMetadata
  | advancedConservative
deriving DecidableEq, Repr

/-- `RemoveRedundantAttributes` from the options module. -/
inductive RemoveRedundantAttributes where
  | none
  | smart
  | all
deriving DecidableEq, Repr

/-- `MinifierType` from the options module. -/
inductive MinifierType where
  | jsScript
  | jsModule
  | json
  | css
  | html
deriving DecidableEq, Repr

/-- `enum CssMinificationMode` in the source. -/
inductive CssMinificationMode where
  | stylesheet
  | listOfDeclarations
  | mediaQueryList
deriving DecidableEq, Repr

/-- `enum HtmlMinificationMode` in the source. -/
inductive HtmlMinificationMode where
  | conditionalComments
  | documentIframeSrcdoc
deriving DecidableEq, Repr

/-- `swc_html_ast::Attribute`: optional namespace prefix (`pfx` models
the source field `prefix`), local name, optional value.  Spans are not
modelled, so plain equality is the source's `eq_ignore_span`. -/
structure Attribute where
  pfx : Option String
  name : String
  value : Option String
deriving DecidableEq, Repr

/-- `swc_html_ast::Child` plus the element payload.  `content` is the
template content (`Option<DocumentFragment>`). -/
inductive Child where
  | comment (data : String) : Child
  | text (data : String) : Child
  | docType (name : Option String) (publicId : Option String) (systemId : Option String) : Child
  | element (ns : Namespace) (tagName : String) (attributes : List Attribute)
      (children : List Child) (content : Option (List Child)) (isSelfClosing : Bool) : Child
deriving Repr

/-- A parsed document: its ordered top-level children (the `mode` field
of the source AST is ignored by the minifier). -/
structure Document where
  children : List Child
deriving Repr

/-- The clone the walker stores in `current_element`: the source copies
the element but empties `children`/`content`, so only these fields are
observable. -/
structure ElemInfo where
  ns : Namespace
  tagName : String
  attributes : List Attribute
  isSelfClosing : Bool
deriving Repr

/-- Entry of the external `swc_html_utils` per-element attribute tables
(`boolean`, `initial`, `inherited`, `deprecated`). -/
structure AttrInfo where
  boolean : Option Bool
  initial : Option String
  inherited : Option Bool
  deprecated : Option Bool
deriving Repr

/-- External collaborators, modelled as black boxes per §9 of the spec:
the JS/CSS/JSON/recursive-HTML sub-minifiers, the user regexes from the
options, and the `swc_html_utils` tables. -/
structure Externs where
  /-- `Minifier::minify_js(data, is_module, is_attribute)`. -/
  jsMin : String → Bool → Bool → Option String
  /-- `Minifier::minify_css(data, mode)`. -/
  cssMin : String → CssMinificationMode → Option String
  /-- `Minifier::minify_json(data)`. -/
  jsonMin : String → Option String
  /-- `Minifier::minify_html(data, mode)` (recursive HTML: parses with
  the external parser, so a black box here). -/
  htmlMin : String → HtmlMinificationMode → Option String
  /-- `preserve_comments` regex list (`None` = option absent). -/
  preserveComments : Option (List (String → Bool))
  /-- `minify_additional_attributes` regex/kind pairs. -/
  additionalAttributes : Option (List ((String → Bool) × MinifierType))
  /-- `minify_additional_scripts_content` regex/kind pairs. -/
  additionalScripts : Option (List ((String → Bool) × MinifierType))
  /-- `HTML_ELEMENTS_AND_ATTRIBUTES`: tag ("*" for the global pseudo
  element) → attribute name → info. -/
  htmlAttrInfo : String → String → Option AttrInfo
  /-- `SVG_ELEMENTS_AND_ATTRIBUTES`. -/
  svgAttrInfo : String → String → Option AttrInfo

/-- The option fields of `MinifyOptions` read by `lib.rs`
(`minify_js`/`minify_css`/`minify_json` are collapsed to their
`need_minify_*()` booleans; the regex-valued options live in `Externs`). -/
structure MinifyOptions where
  forceSetHtml5Doctype : Bool
  collapseWhitespaces : CollapseWhitespaces
  removeComments : Bool
  minifyConditionalComments : Bool
  removeEmptyMetadataElements : Bool
  mergeMetadataElements : Bool
  removeRedundantAttributes : RemoveRedundantAttributes
  collapseBooleanAttributes : Bool
  removeEmptyAttributes : Bool
  normalizeAttributes : Bool
  sortSpaceSeparatedAttributeValues : Bool
  sortAttributes : Bool
  minifyJs : Bool
  minifyJson : Bool
  minifyCss : Bool

/-- Immutable data of a `Minifier` run: options, external hooks, and the
attribute-name census (`attribute_name_counter`, present only when
`sort_attributes` is on; stored as the raw multiset of names). -/
structure Params where
  opts : MinifyOptions
  ext : Externs
  counter : Option (List String)

/-- The mutable visitor state of `struct Minifier`. -/
structure MState where
  currentElement : Option ElemInfo
  latestElement : Option Child
  descendantOfPre : Bool

/-! ## Character and string helpers -/

/-- The source's `fn is_whitespace`: HT, LF, FF, CR, SP. -/
def isWs (c : Char) : Bool :=
  c == '\x09' || c == '\x0a' || c == '\x0c' || c == '\x0d' || c == '\x20'

/-- The ASCII part of the white space class used by Rust's `str::trim`
(adds VT to `isWs`). -/
def isRustTrimWs (c : Char) : Bool :=
  c == '\x09' || c == '\x0a' || c == '\x0b' || c == '\x0c' || c == '\x0d' || c == '\x20'

def trimStartMatchesL (p : Char → Bool) : List Char → List Char
  | [] => []
  | c :: cs => if p c then trimStartMatchesL p cs else c :: cs

def trimEndMatchesL (p : Char → Bool) (cs : List Char) : List Char :=
  (trimStartMatchesL p cs.reverse).reverse

/-- Rust `str::trim_start_matches(pred)`. -/
def trimStartMatches (p : Char → Bool) (s : String) : String :=
  String.mk (trimStartMatchesL p s.toList)

/-- Rust `str::trim_end_matches(pred)`. -/
def trimEndMatches (p : Char → Bool) (s : String) : String :=
  String.mk (trimEndMatchesL p s.toList)

/-- Rust `str::trim()` (ASCII white space). -/
def rustTrim (s : String) : String :=
  trimEndMatches isRustTrimWs (trimStartMatches isRustTrimWs s)

def asciiLowerChar (c : Char) : Char :=
  if 'A' ≤ c && c ≤ 'Z' then Char.ofNat (c.toNat + 32) else c

/-- Rust `str::to_ascii_lowercase()`. -/
def asciiLower (s : String) : String :=
  String.mk (s.toList.map asciiLowerChar)

/-- `data.starts_with(is_whitespace)`. -/
def startsWithWs (s : String) : Bool :=
  match s.toList with
  | [] => false
  | c :: _ => isWs c

/-- `data.ends_with(is_whitespace)`. -/
def endsWithWs (s : String) : Bool :=
  match s.toList.getLast? with
  | some c => isWs c
  | none => false

/-- `data.chars().all(is_whitespace)`. -/
def allWs (s : String) : Bool := s.toList.all isWs

def collapseWsL : Bool → List Char → List Char
  | _, [] => []
  | inWs, c :: cs =>
      if isWs c then
        if inWs then collapseWsL true cs else ' ' :: collapseWsL true cs
      else c :: collapseWsL false cs

/-- `Minifier::collapse_whitespace`: each run of `isWs` characters
becomes a single space. -/
def collapseWhitespace (s : String) : String :=
  String.mk (collapseWsL false s.toList)

/-- Rust `str::split_whitespace()` (ASCII subset). -/
def splitWhitespace (s : String) : List String :=
  (s.split (isRustTrimWs ·)).filter (· ≠ "")

/-- First index (in characters) at which `pat` occurs in the list;
models Rust `str::find(pat)` on ASCII data. -/
def findSubIdx (pat : List Char) : List Char → Option Nat
  | [] => if pat.isEmpty then some 0 else none
  | c :: cs =>
      if pat.isPrefixOf (c :: cs) then some 0
      else (findSubIdx pat cs).map (· + 1)

/-- Rust `str::contains(pat)` for a string pattern. -/
def containsSub (pat : List Char) (l : List Char) : Bool :=
  (findSubIdx pat l).isSome

/-! ## Static attribute tables (`static …` items of the source) -/

def EVENT_HANDLER_ATTRIBUTES : List String :=
  ["onabort", "onautocomplete", "onautocompleteerror", "onauxclick", "onbeforematch",
   "oncancel", "oncanplay", "oncanplaythrough", "onchange", "onclick", "onclose",
   "oncontextlost", "oncontextmenu", "oncontextrestored", "oncuechange", "ondblclick",
   "ondrag", "ondragend", "ondragenter", "ondragexit", "ondragleave", "ondragover",
   "ondragstart", "ondrop", "ondurationchange", "onemptied", "onended", "onformdata",
   "oninput", "oninvalid", "onkeydown", "onkeypress", "onkeyup", "onmousewheel",
   "onmousedown", "onmouseenter", "onmouseleave", "onmousemove", "onmouseout",
   "onmouseover", "onmouseup", "onpause", "onplay", "onplaying", "onprogress",
   "onratechange", "onreset", "onsecuritypolicyviolation", "onseeked", "onseeking",
   "onselect", "onslotchange", "onstalled", "onsubmit", "onsuspend", "ontimeupdate",
   "ontoggle", "onvolumechange", "onwaiting", "onwebkitanimationend",
   "onwebkitanimationiteration", "onwebkitanimationstart", "onwebkittransitionend",
   "onwheel", "onblur", "onerror", "onfocus", "onload", "onloadeddata",
   "onloadedmetadata", "onloadstart", "onresize", "onscroll", "onafterprint",
   "onbeforeprint", "onbeforeunload", "onhashchange", "onlanguagechange", "onmessage",
   "onmessageerror", "onoffline", "ononline", "onpagehide", "onpageshow", "onpopstate",
   "onrejectionhandled", "onstorage", "onunhandledrejection", "onunload", "oncut",
   "oncopy", "onpaste", "onreadystatechange", "onvisibilitychange", "onshow", "onsort",
   "onbegin", "onend", "onrepeat"]

def ALLOW_TO_TRIM_GLOBAL_ATTRIBUTES : List String := ["style", "tabindex", "itemid"]

def ALLOW_TO_TRIM_HTML_ATTRIBUTES : List (String × String) :=
  [("head", "profile"), ("audio", "src"), ("embed", "src"), ("iframe", "src"),
   ("img", "src"), ("input", "src"), ("input", "usemap"), ("input", "longdesc"),
   ("script", "src"), ("source", "src"), ("track", "src"), ("video", "src"),
   ("video", "poster"), ("td", "colspan"), ("td", "rowspan"), ("th", "colspan"),
   ("th", "rowspan"), ("col", "span"), ("colgroup", "span"), ("textarea", "cols"),
   ("textarea", "rows"), ("textarea", "maxlength"), ("input", "size"),
   ("input", "formaction"), ("input", "maxlength"), ("button", "formaction"),
   ("select", "size"), ("form", "action"), ("object", "data"), ("object", "codebase"),
   ("object", "classid"), ("applet", "codebase"), ("a", "href"), ("area", "href"),
   ("link", "href"), ("base", "href"), ("q", "cite"), ("blockquote", "cite"),
   ("del", "cite"), ("ins", "cite"), ("img", "usemap"), ("object", "usemap")]

def ALLOW_TO_TRIM_SVG_ATTRIBUTES : List (String × String) := [("a", "href")]

def COMMA_SEPARATED_HTML_ATTRIBUTES : List (String × String) :=
  [("img", "srcset"), ("source", "srcset"), ("img", "sizes"), ("source", "sizes"),
   ("link", "media"), ("source", "media"), ("style", "media")]

def COMMA_SEPARATED_SVG_ATTRIBUTES : List (String × String) :=
  [("style", "media"), ("polyline", "points"), ("polygon", "points")]

def SPACE_SEPARATED_GLOBAL_ATTRIBUTES : List String :=
  ["class", "itemprop", "itemref", "itemtype", "part", "accesskey",
   "aria-describedby", "aria-labelledby", "aria-owns"]

def SPACE_SEPARATED_HTML_ATTRIBUTES : List (String × String) :=
  [("a", "rel"), ("a", "ping"), ("area", "rel"), ("area", "ping"), ("link", "rel"),
   ("link", "sizes"), ("link", "blocking"), ("iframe", "sandbox"), ("td", "headers"),
   ("th", "headers"), ("output", "for"), ("script", "blocking"), ("style", "blocking"),
   ("input", "autocomplete"), ("form", "rel"), ("form", "autocomplete")]

def SPACE_SEPARATED_SVG_ATTRIBUTES : List (String × String) :=
  [("svg", "preserveAspectRatio"), ("svg", "viewBox"), ("symbol", "preserveAspectRatio"),
   ("symbol", "viewBox"), ("image", "preserveAspectRatio"), ("feImage", "preserveAspectRatio"),
   ("marker", "preserveAspectRatio"), ("pattern", "preserveAspectRatio"),
   ("pattern", "viewBox"), ("pattern", "patternTransform"), ("view", "preserveAspectRatio"),
   ("view", "viewBox"), ("path", "d"), ("textPath", "path"), ("animateMotion", "path"),
   ("glyph", "d"), ("missing-glyph", "d"), ("feColorMatrix", "values"),
   ("feConvolveMatrix", "kernelMatrix"), ("text", "rotate"), ("tspan", "rotate"),
   ("feFuncA", "tableValues"), ("feFuncB", "tableValues"), ("feFuncG", "tableValues"),
   ("feFuncR", "tableValues"), ("linearGradient", "gradientTransform"),
   ("radialGradient", "gradientTransform"), ("font-face", "panose-1"), ("a", "rel")]

def SEMICOLON_SEPARATED_SVG_ATTRIBUTES : List (String × String) :=
  [("animate", "keyTimes"), ("animate", "keySplines"), ("animate", "values"),
   ("animate", "begin"), ("animate", "end"), ("animateColor", "keyTimes"),
   ("animateColor", "keySplines"), ("animateColor", "values"), ("animateColor", "begin"),
   ("animateColor", "end"), ("animateMotion", "keyTimes"), ("animateMotion", "keySplines"),
   ("animateMotion", "values"), ("animateMotion", "values"), ("animateMotion", "end"),
   ("animateTransform", "keyTimes"), ("animateTransform", "keySplines"),
   ("animateTransform", "values"), ("animateTransform", "begin"),
   ("animateTransform", "end"), ("discard", "begin"), ("set", "begin"), ("set", "end")]

/-! ## Element classification -/

/-- `fn get_white_space(namespace, tag_name)`. -/
def getWhiteSpace (ns : Namespace) (tagName : String) : WhiteSpace :=
  match ns with
  | .html =>
      if ["textarea", "code", "pre", "listing", "plaintext", "xmp"].contains tagName
      then .pre else .normal
  | _ => .normal

/-- `struct WhitespaceMinificationMode`. -/
structure WhitespaceMinificationMode where
  trim : Bool
  collapse : Bool
deriving DecidableEq, Repr

/-- `Minifier::is_custom_element`. -/
def isCustomElement (tagName : String) : Bool :=
  if ["annotation-xml", "color-profile", "font-face", "font-face-src", "font-face-uri",
      "font-face-format", "font-face-name", "missing-glyph"].contains tagName
  then false
  else
    (match tagName.toList with
     | c :: _ => 'a' ≤ c && c ≤ 'z'
     | [] => false) && tagName.contains '-'

/-- `Minifier::get_display`. -/
def getDisplay (ns : Namespace) (tagName : String) : Display :=
  match ns with
  | .html =>
      if ["area", "base", "basefont", "datalist", "head", "link", "meta", "noembed",
          "noframes", "param", "rp", "script", "style", "template", "title"].contains tagName
      then .none
      else if ["a", "abbr", "acronym", "b", "bdi", "bdo", "cite", "data", "big", "del",
               "dfn", "em", "i", "ins", "kbd", "mark", "q", "nobr", "rtc", "s", "samp",
               "small", "span", "strike", "strong", "sub", "sup", "time", "tt", "u",
               "var", "wbr", "object", "audio", "code", "label", "br", "img", "video",
               "noscript", "picture", "source", "track", "map", "applet", "bgsound",
               "blink", "canvas", "command", "content", "embed", "frame", "iframe",
               "image", "isindex", "keygen", "output", "rbc", "shadow",
               "spacer"].contains tagName
      then .inline
      else if ["html", "body", "address", "blockquote", "center", "div", "figure",
               "figcaption", "footer", "form", "header", "hr", "legend", "listing",
               "main", "p", "plaintext", "pre", "xmp", "details", "summary", "optgroup",
               "option", "h1", "h2", "h3", "h4", "h5", "h6", "fieldset", "ul", "ol",
               "menu", "dir", "dl", "dt", "dd", "section", "nav", "hgroup", "aside",
               "article", "dialog", "element", "font", "frameset"].contains tagName
      then .block
      else if tagName = "li" then .listItem
      else if ["button", "meter", "progress", "select", "textarea", "input",
               "marquee"].contains tagName then .inlineBlock
      else if tagName = "ruby" then .ruby
      else if tagName = "rb" then .rubyBase
      else if tagName = "rt" then .rubyText
      else if tagName = "table" then .table
      else if tagName = "caption" then .tableCaption
      else if tagName = "colgroup" then .tableColumnGroup
      else if tagName = "col" then .tableColumn
      else if tagName = "thead" then .tableHeaderGroup
      else if tagName = "tbody" then .tableRowGroup
      else if tagName = "tfoot" then .tableFooterGroup
      else if tagName = "tr" then .tableRow
      else if tagName = "td" || tagName = "th" then .tableCell
      else if tagName = "slot" then .contents
      else .inline
  | .svg =>
      if tagName = "text" || tagName = "foreignObject" then .block else .inline
  | _ => .inline

/-- `Minifier::is_element_displayed`. -/
def isElementDisplayed (ns : Namespace) (tagName : String) : Bool :=
  match ns with
  | .html =>
      !(["base", "command", "link", "meta", "style", "title", "template"].contains tagName)
  | .svg => tagName ≠ "style"
  | _ => true

/-- `Minifier::need_collapse_whitespace`. -/
def needCollapseWhitespace (opts : MinifyOptions) : Bool :=
  opts.collapseWhitespaces ≠ .none

/-- `Minifier::get_whitespace_minification_for_tag`. -/
def getWhitespaceMinificationForTag (opts : MinifyOptions) (ns : Namespace)
    (tagName : String) : WhitespaceMinificationMode :=
  let defaultCollapse :=
    match opts.collapseWhitespaces with
    | .all | .smart | .conservative | .advancedConservative => true
    | .onlyMetadata | .none => false
  let defaultTrim :=
    match opts.collapseWhitespaces with
    | .all => true
    | .smart | .conservative | .onlyMetadata | .advancedConservative | .none => false
  match ns with
  | .html =>
      if tagName = "script" || tagName = "style" then
        { collapse := false,
          trim := !(opts.collapseWhitespaces = .none ∨
                    opts.collapseWhitespaces = .onlyMetadata : Bool) }
      else if getWhiteSpace ns tagName = .pre then
        { collapse := false, trim := false }
      else
        { collapse := defaultCollapse, trim := defaultTrim }
  | .svg =>
      if tagName = "script" || tagName = "style" then
        { collapse := false, trim := true }
      else if ["a", "circle", "ellipse", "foreignObject", "g", "image", "line", "path",
               "polygon", "polyline", "rect", "svg", "switch", "symbol", "text",
               "textPath", "tspan", "use"].contains tagName then
        { collapse := defaultCollapse, trim := defaultTrim }
      else
        { collapse := defaultCollapse,
          trim := !(opts.collapseWhitespaces = .none ∨
                    opts.collapseWhitespaces = .onlyMetadata : Bool) }
  | _ => { collapse := false, trim := defaultTrim }

/-! ## Attribute predicates (`impl Minifier` helpers) -/

/-- `Minifier::is_event_handler_attribute`. -/
def isEventHandlerAttribute (a : Attribute) : Bool :=
  EVENT_HANDLER_ATTRIBUTES.contains a.name

/-- `Minifier::is_boolean_attribute` (table lookups through the external
`HTML_ELEMENTS_AND_ATTRIBUTES` map). -/
def isBooleanAttribute (ext : Externs) (el : ElemInfo) (a : Attribute) : Bool :=
  if el.ns ≠ .html then false
  else
    let fromInfo : Option AttrInfo → Bool := fun
      | some info => info.boolean = some true
      | none => false
    fromInfo (ext.htmlAttrInfo "*" a.name) || fromInfo (ext.htmlAttrInfo el.tagName a.name)

/-- `Minifier::is_trimable_separated_attribute`. -/
def isTrimableSeparatedAttribute (el : ElemInfo) (a : Attribute) : Bool :=
  if ALLOW_TO_TRIM_GLOBAL_ATTRIBUTES.contains a.name then true
  else
    match el.ns with
    | .html => ALLOW_TO_TRIM_HTML_ATTRIBUTES.contains (el.tagName, a.name)
    | .svg => ALLOW_TO_TRIM_SVG_ATTRIBUTES.contains (el.tagName, a.name)
    | _ => false

/-- `Minifier::element_has_attribute_with_value`. -/
def elementHasAttributeWithValue (el : ElemInfo) (attributeName : String)
    (attributeValue : List String) : Bool :=
  el.attributes.any fun a =>
    a.name = attributeName &&
      (match a.value with
       | some v => attributeValue.contains (asciiLower v)
       | none => false)

/-- `Minifier::is_comma_separated_attribute`. -/
def isCommaSeparatedAttribute (el : ElemInfo) (a : Attribute) : Bool :=
  match el.ns with
  | .html =>
      if a.name = "content" && el.tagName = "meta" &&
          elementHasAttributeWithValue el "name" ["viewport", "keywords"] then true
      else if a.name = "imagesrcset" && el.tagName = "link" &&
          elementHasAttributeWithValue el "rel" ["preload"] then true
      else if a.name = "imagesizes" && el.tagName = "link" &&
          elementHasAttributeWithValue el "rel" ["preload"] then true
      else if a.name = "accept" && el.tagName = "input" &&
          elementHasAttributeWithValue el "type" ["file"] then true
      else if a.name = "exportparts" then true
      else COMMA_SEPARATED_HTML_ATTRIBUTES.contains (el.tagName, a.name)
  | .svg => COMMA_SEPARATED_SVG_ATTRIBUTES.contains (el.tagName, a.name)
  | _ => false

/-- `Minifier::is_space_separated_attribute`. -/
def isSpaceSeparatedAttribute (el : ElemInfo) (a : Attribute) : Bool :=
  if SPACE_SEPARATED_GLOBAL_ATTRIBUTES.contains a.name then true
  else
    match el.ns with
    | .html => SPACE_SEPARATED_HTML_ATTRIBUTES.contains (el.tagName, a.name)
    | .svg =>
        if ["transform", "stroke-dasharray", "clip-path", "requiredFeatures"].contains a.name
        then true
        else SPACE_SEPARATED_SVG_ATTRIBUTES.contains (el.tagName, a.name)
    | _ => false

/-- `Minifier::is_semicolon_separated_attribute`. -/
def isSemicolonSeparatedAttribute (el : ElemInfo) (a : Attribute) : Bool :=
  match el.ns with
  | .svg => SEMICOLON_SEPARATED_SVG_ATTRIBUTES.contains (el.tagName, a.name)
  | _ => false

/-- `Minifier::is_attribute_value_unordered_set`. -/
def isAttributeValueUnorderedSet (el : ElemInfo) (a : Attribute) : Bool :=
  if ["class", "part", "itemprop", "itemref", "itemtype"].contains a.name then true
  else
    match el.ns with
    | .html =>
        if (el.tagName = "link" || el.tagName = "script" || el.tagName = "style") &&
            a.name = "blocking" then true
        else if el.tagName = "output" && a.name = "for" then true
        else if (el.tagName = "td" || el.tagName = "th") && a.name = "headers" then true
        else if el.tagName = "form" && a.name = "rel" then true
        else if el.tagName = "a" && a.name = "rel" then true
        else if el.tagName = "area" && a.name = "rel" then true
        else if el.tagName = "link" && a.name = "rel" then true
        else if el.tagName = "iframe" && a.name = "sandbox" then true
        else if el.tagName = "link" &&
            elementHasAttributeWithValue el "rel"
              ["icon", "apple-touch-icon", "apple-touch-icon-precomposed"] &&
            a.name = "sizes" then true
        else false
    | .svg => el.tagName = "a" && a.name = "rel"
    | _ => false

/-- `Minifier::is_crossorigin_attribute`. -/
def isCrossoriginAttribute (el : ElemInfo) (a : Attribute) : Bool :=
  (el.ns = .html &&
    ["img", "audio", "video", "script", "link"].contains el.tagName &&
    a.name = "crossorigin") ||
  (el.ns = .svg && el.tagName = "image" && a.name = "crossorigin")

/-- `Minifier::is_type_text_javascript` (legacy JavaScript MIME types). -/
def isTypeTextJavascript (value : String) : Bool :=
  let v := asciiLower (rustTrim value)
  let v := match v.splitOn ";" with
           | first :: _ => first
           | [] => v
  ["application/javascript", "application/ecmascript", "application/x-ecmascript",
   "application/x-javascript", "text/ecmascript", "text/javascript1.0",
   "text/javascript1.1", "text/javascript1.2", "text/javascript1.3",
   "text/javascript1.4", "text/javascript1.5", "text/jscript", "text/livescript",
   "text/x-ecmascript", "text/x-javascript", "text/javascript"].contains v

/-- `Minifier::is_javascript_url_element`. -/
def isJavascriptUrlElement (el : ElemInfo) : Bool :=
  ((el.ns = .html || el.ns = .svg) && el.tagName = "a") ||
  (el.ns = .html && el.tagName = "iframe")

/-- `Minifier::is_preserved_comment`. -/
def isPreservedComment (ext : Externs) (data : String) : Bool :=
  match ext.preserveComments with
  | some regexes => regexes.any (fun r => r data)
  | none => false

/-- The pattern `^\[if\s[^\]+]` (`CONDITIONAL_COMMENT_START`): `"[if"`,
one white-space character, then one character that is neither `]` nor
`+`. -/
def conditionalCommentStartMatch (data : String) : Bool :=
  match data.toList with
  | '[' :: 'i' :: 'f' :: c :: d :: _ => isRustTrimWs c && d ≠ ']' && d ≠ '+'
  | _ => false

/-- The pattern `\[endif]` (`CONDITIONAL_COMMENT_END`). -/
def conditionalCommentEndMatch (data : String) : Bool :=
  containsSub "[endif]".toList data.toList

/-- `Minifier::is_conditional_comment`. -/
def isConditionalComment (data : String) : Bool :=
  conditionalCommentStartMatch data || conditionalCommentEndMatch data

/-- `Minifier::is_default_attribute_value`. -/
def isDefaultAttributeValue (ext : Externs) (opts : MinifyOptions) (ns : Namespace)
    (tagName : String) (a : Attribute) : Bool :=
  match a.value with
  | none => false
  | some attributeValue =>
    match ns with
    | .html | .svg =>
        let special : Bool :=
          if tagName = "html" then
            (a.name = "xmlns" &&
              asciiLower (rustTrim attributeValue) = "http://www.w3.org/1999/xhtml") ||
            (a.name = "xmlns:xlink" &&
              asciiLower (rustTrim attributeValue) = "http://www.w3.org/1999/xlink")
          else if tagName = "script" then
            (a.name = "type" && isTypeTextJavascript attributeValue) ||
            (a.name = "language" &&
              ["javascript", "javascript1.2", "javascript1.3", "javascript1.4",
               "javascript1.5", "javascript1.6",
               "javascript1.7"].contains (asciiLower (rustTrim attributeValue)))
          else if tagName = "link" then
            a.name = "type" && asciiLower (rustTrim attributeValue) = "text/css"
          else if tagName = "svg" then
            a.name = "xmlns" &&
              asciiLower (rustTrim attributeValue) = "http://www.w3.org/2000/svg"
          else false
        if special then true
        else
          let lookup := if ns = .html then ext.htmlAttrInfo else ext.svgAttrInfo
          let attributeName :=
            match a.pfx with
            | some p => p ++ ":" ++ a.name
            | none => a.name
          let normalizedValue := rustTrim attributeValue
          match lookup tagName attributeName with
          | none => false
          | some info =>
              match info.inherited, info.initial with
              | none, some initial | some false, some initial =>
                  (match opts.removeRedundantAttributes with
                   | .none => false
                   | .smart =>
                       if initial = normalizedValue then
                         if info.deprecated = some true then true
                         else if ns = .svg then true
                         else if ns = .html &&
                             ["base", "link", "noscript", "script", "style",
                              "title"].contains tagName then true
                         else false
                       else false
                   | .all => initial = normalizedValue)
              | _, _ => false
    | _ =>
        (ns = .mathml && tagName = "math" && a.name = "xmlns" &&
          rustTrim (asciiLower attributeValue) = "http://www.w3.org/1998/math/mathml") ||
        (ns = .mathml && tagName = "math" && a.name = "xlink" &&
          rustTrim (asciiLower attributeValue) = "http://www.w3.org/1999/xlink")

/-! ## Metadata-element merging -/

/-- The attribute filter both sides of `allow_elements_to_merge` apply:
drops recognized default `type` attributes and reports the `need_skip`
flag (a `src` on a script, or a non-default `type` value). -/
def mergeFilterAttrs (isStyleTag isScriptTag : Bool) (attrs : List Attribute) :
    List Attribute × Bool :=
  attrs.foldl
    (fun acc a =>
      if a.name = "src" && isScriptTag then (acc.1 ++ [a], true)
      else if a.name = "type" then
        match a.value with
        | some v =>
            if (isStyleTag && asciiLower (rustTrim v) = "text/css") ||
               (isScriptTag && isTypeTextJavascript v)
            then acc
            else (acc.1 ++ [a], true)
        | none => (acc.1 ++ [a], acc.2)
      else (acc.1 ++ [a], acc.2))
    ([], false)

/-- `Minifier::allow_elements_to_merge(left, right)`; `right` is given by
its element fields. -/
def allowElementsToMerge (left : Option Child) (rightNs : Namespace)
    (rightTag : String) (rightAttrs : List Attribute) : Bool :=
  match left with
  | some (.element leftNs leftTag leftAttrs _ _ _) =>
      let isStyleTag :=
        (leftNs = .html || leftNs = .svg) && leftTag = "style" &&
        (rightNs = .html || rightNs = .svg) && rightTag = "style"
      let isScriptTag :=
        (leftNs = .html || leftNs = .svg) && leftTag = "script" &&
        (rightNs = .html || rightNs = .svg) && rightTag = "script"
      if isStyleTag || isScriptTag then
        let (leftFiltered, skipL) := mergeFilterAttrs isStyleTag isScriptTag leftAttrs
        if skipL then false
        else
          let (rightFiltered, skipR) := mergeFilterAttrs isStyleTag isScriptTag rightAttrs
          if skipR then false
          else
            decide
              (List.insertionSort (fun a b => a.name ≤ b.name) leftFiltered =
               List.insertionSort (fun a b => a.name ≤ b.name) rightFiltered)
      else false
  | _ => false

/-- `Minifier::merge_text_children(left, right)`, with the two elements
given by their fields. -/
def mergeTextChildren (leftNs : Namespace) (leftTag : String) (leftChildren : List Child)
    (rightNs : Namespace) (rightTag : String) (rightChildren : List Child) : List Child :=
  let isScriptTag :=
    (leftNs = .html || leftNs = .svg) && leftTag = "script" &&
    (rightNs = .html || rightNs = .svg) && rightTag = "script"
  let data :=
    (leftChildren ++ rightChildren).foldl
      (fun acc c =>
        match c with
        | .text d => if d.length > 0 then acc ++ d ++ (if isScriptTag then ";" else "") else acc
        | _ => acc)
      ""
  if data = "" then [] else [.text data]

/-- `Minifier::is_empty_children`. -/
def isEmptyChildren (children : List Child) : Bool :=
  children.all fun c =>
    match c with
    | .text t => allWs t
    | _ => false

/-- `Minifier::is_empty_metadata_element`. -/
def isEmptyMetadataElement (c : Child) : Bool :=
  match c with
  | .element ns tagName attrs children content _ =>
      (!isElementDisplayed ns tagName ||
        ((ns = .html || ns = .svg) && tagName = "script") ||
        (ns = .html && tagName = "noscript")) &&
      attrs.isEmpty && isEmptyChildren children && content.isNone
  | _ => false

/-! ## Sizes and the displayed-node walks

The four `get_*_displayed_*` helpers of the source recurse both along a
sibling list and into element subtrees; the embedding drives them with
an explicit fuel seeded far above the depth any input can need. -/

mutual
def childSz : Child → Nat
  | .comment _ => 1
  | .text _ => 1
  | .docType _ _ _ => 1
  | .element _ _ _ children content _ =>
      1 + childrenSz children +
        (match content with
         | some cs => 1 + childrenSz cs
         | none => 0)
def childrenSz : List Child → Nat
  | [] => 1
  | c :: cs => 1 + childSz c + childrenSz cs
end

mutual
def getPrevDisplayedNodeF (fuel : Nat) (children : List Child) (index : Nat) :
    Option Child :=
  match fuel with
  | 0 => none
  | fuel + 1 =>
    match children.get? index with
    | some (.comment _) =>
        if index ≥ 1 then getPrevDisplayedNodeF fuel children (index - 1) else none
    | some (.element ns tagName attrs ecs content sc) =>
        if !isElementDisplayed ns tagName && index ≥ 1 then
          getPrevDisplayedNodeF fuel children (index - 1)
        else if !ecs.isEmpty then
          getPrevDisplayedNodeF fuel ecs (ecs.length - 1)
        else some (.element ns tagName attrs ecs content sc)
    | some c => some c
    | none => none
def getLastDisplayedTextNodeF (fuel : Nat) (children : List Child) (index : Nat) :
    Option String :=
  match fuel with
  | 0 => none
  | fuel + 1 =>
    match children.get? index with
    | some (.comment _) =>
        if index ≥ 1 then getLastDisplayedTextNodeF fuel children (index - 1) else none
    | some (.element ns tagName _ ecs _ _) =>
        if !isElementDisplayed ns tagName && index ≥ 1 then
          getLastDisplayedTextNodeF fuel children (index - 1)
        else if !ecs.isEmpty then
          lastDisplayedTextLoopF fuel ecs (ecs.length - 1)
        else none
    | some (.text t) => some t
    | _ => none
/-- The `for index in (0..=len-1).rev()` search loop inside
`get_last_displayed_text_node`. -/
def lastDisplayedTextLoopF (fuel : Nat) (children : List Child) (index : Nat) :
    Option String :=
  match fuel with
  | 0 => none
  | fuel + 1 =>
    match getLastDisplayedTextNodeF fuel children index with
    | some t => some t
    | none => if index = 0 then none else lastDisplayedTextLoopF fuel children (index - 1)
def getFirstDisplayedTextNodeF (fuel : Nat) (children : List Child) (index : Nat) :
    Option String :=
  match fuel with
  | 0 => none
  | fuel + 1 =>
    match children.get? index with
    | some (.comment _) => getFirstDisplayedTextNodeF fuel children (index + 1)
    | some (.element ns tagName _ ecs _ _) =>
        if !isElementDisplayed ns tagName && index ≥ 1 then
          getFirstDisplayedTextNodeF fuel children (index - 1)
        else if !ecs.isEmpty then
          firstDisplayedTextLoopF fuel ecs 0
        else none
    | some (.text t) => some t
    | _ => none
/-- The `for index in 0..=len-1` search loop inside
`get_first_displayed_text_node`. -/
def firstDisplayedTextLoopF (fuel : Nat) (children : List Child) (index : Nat) :
    Option String :=
  match fuel with
  | 0 => none
  | fuel + 1 =>
    if index ≥ children.length then none
    else
      match getFirstDisplayedTextNodeF fuel children index with
      | some t => some t
      | none => firstDisplayedTextLoopF fuel children (index + 1)
end

def getNextDisplayedNodeF (fuel : Nat) (children : List Child) (index : Nat) :
    Option Child :=
  match fuel with
  | 0 => none
  | fuel + 1 =>
    match children.get? index with
    | some (.comment _) => getNextDisplayedNodeF fuel children (index + 1)
    | some (.element ns tagName attrs ecs content sc) =>
        if !isElementDisplayed ns tagName then
          getNextDisplayedNodeF fuel children (index + 1)
        else some (.element ns tagName attrs ecs content sc)
    | some c => some c
    | none => none

/-- Fuel that dominates every recursion path of the helpers above. -/
def displayFuel (children : List Child) (index : Nat) : Nat :=
  2 * childrenSz children + 2 * children.length + index + 4

/-- `Minifier::get_prev_displayed_node`. -/
def getPrevDisplayedNode (children : List Child) (index : Nat) : Option Child :=
  getPrevDisplayedNodeF (displayFuel children index) children index

/-- `Minifier::get_last_displayed_text_node`. -/
def getLastDisplayedTextNode (children : List Child) (index : Nat) : Option String :=
  getLastDisplayedTextNodeF (displayFuel children index) children index

/-- `Minifier::get_first_displayed_text_node`. -/
def getFirstDisplayedTextNode (children : List Child) (index : Nat) : Option String :=
  getFirstDisplayedTextNodeF (displayFuel children index) children index

/-- `Minifier::get_next_displayed_node`. -/
def getNextDisplayedNode (children : List Child) (index : Nat) : Option Child :=
  getNextDisplayedNodeF (displayFuel children index) children index

/-! ## Body-edge trimming -/

/-- The `only_first` pass of
`Minifier::remove_leading_and_trailing_whitespaces`. -/
def removeLeadingWs : List Child → List Child
  | [] => []
  | c :: rest =>
      match c with
      | .text t =>
          let t := trimStartMatches isWs t
          if t = "" then rest else .text t :: rest
      | .element ns tagName attrs ecs content sc =>
          if getWhiteSpace ns tagName = .normal then
            .element ns tagName attrs (removeLeadingWs ecs) content sc :: rest
          else c :: rest
      | _ => c :: rest

/-- The `only_last` pass of
`Minifier::remove_leading_and_trailing_whitespaces`. -/
def removeTrailingWs : List Child → List Child
  | [] => []
  | [c] =>
      match c with
      | .text t =>
          let t := trimEndMatches isWs t
          if t = "" then [] else [.text t]
      | .element ns tagName attrs ecs content sc =>
          if getWhiteSpace ns tagName = .normal then
            [.element ns tagName attrs (removeTrailingWs ecs) content sc]
          else [c]
      | _ => [c]
  | c :: rest => c :: removeTrailingWs rest

/-- `Minifier::remove_leading_and_trailing_whitespaces`. -/
def removeLeadingAndTrailingWhitespaces (children : List Child)
    (onlyFirst onlyLast : Bool) : List Child :=
  let children := if onlyFirst then removeLeadingWs children else children
  if onlyLast then removeTrailingWs children else children

/-! ## The children minifier (`Minifier::minify_children`) -/

/-- The Text arm of the `child_will_be_retained` closure (source lines
1504–1777): Smart/OnlyMetadata/AdvancedConservative left/right trim
decisions, then trimming and collapsing under `mode`.  Returns `none`
when the text is dropped, otherwise the rewritten data. -/
def minifyTextChild (p : Params) (latest : Option Child) (ns : Namespace)
    (tagName : String) (mode : WhitespaceMinificationMode)
    (prevChildren nextChildren : List Child) (data : String) : Option String :=
  let decision :=
    if [CollapseWhitespaces.smart, .onlyMetadata,
        .advancedConservative].contains p.opts.collapseWhitespaces then
      let nrmw :=
        [CollapseWhitespaces.onlyMetadata,
         .advancedConservative].contains p.opts.collapseWhitespaces
      let prev := prevChildren.getLast?
      let prevDisplay : Option Display :=
        match prev with
        | some (.element ens etag _ _ _ _) => some (getDisplay ens etag)
        | some (.comment _) => if nrmw then none else some .none
        | _ => none
      let allowToTrimLeft :=
        match prevDisplay with
        | some .block | some .listItem | some .table | some .tableColumnGroup
        | some .tableCaption | some .tableColumn | some .tableRow | some .tableCell
        | some .tableHeaderGroup | some .tableRowGroup | some .tableFooterGroup => true
        | some .none | some .inline =>
            let isCustom :=
              match prev with
              | some (.element _ etag _ _ _ _) => isCustomElement etag
              | _ => false
            if isCustom then false
            else
              match getPrevDisplayedNode prevChildren (prevChildren.length - 1) with
              | some (.text t) => endsWithWs t
              | some (.element _ _ _ ecs _ _) =>
                  let deep :=
                    if !ecs.isEmpty then getLastDisplayedTextNode ecs (ecs.length - 1)
                    else none
                  match deep with
                  | some d => endsWithWs d
                  | none => false
              | _ =>
                  match getDisplay ns tagName with
                  | .inline =>
                      match latest with
                      | some (.text d) => endsWithWs d
                      | _ => false
                  | _ => true
        | some _ => false
        | none =>
            if (ns = .html && tagName = "template") || isCustomElement tagName then false
            else
              match getDisplay ns tagName with
              | .inline =>
                  match latest with
                  | some (.text d) => endsWithWs d
                  | _ => false
              | _ => true
      let next := nextChildren.head?
      let nextDisplay : Option Display :=
        match next with
        | some (.element ens etag _ _ _ _) => some (getDisplay ens etag)
        | some (.comment _) => if nrmw then none else some .none
        | _ => none
      let allowToTrimRight :=
        match nextDisplay with
        | some .block | some .listItem | some .table | some .tableColumnGroup
        | some .tableCaption | some .tableColumn | some .tableRow | some .tableCell
        | some .tableHeaderGroup | some .tableRowGroup | some .tableFooterGroup => true
        | some .none =>
            match getNextDisplayedNode nextChildren 0 with
            | some (.text t) => startsWithWs t
            | some (.element _ _ _ ecs _ _) =>
                match getFirstDisplayedTextNode ecs 0 with
                | some deep => !startsWithWs deep
                | none => false
            | _ => !(getDisplay ns tagName = .inline : Bool)
        | some _ => false
        | none =>
            if ns = .html && tagName = "template" then false
            else !(getDisplay ns tagName = .inline : Bool)
      if p.opts.collapseWhitespaces = .smart ||
          (nrmw && prevDisplay = some .none && nextDisplay = some .none) then
        (allowToTrimLeft, allowToTrimRight)
      else (false, false)
    else (false, false)
  let isSmartLeftTrim := decision.1
  let isSmartRightTrim := decision.2
  let value := if mode.trim || isSmartLeftTrim then trimStartMatches isWs data else data
  let value := if mode.trim || isSmartRightTrim then trimEndMatches isWs value else value
  if value = "" then none
  else if mode.collapse then some (collapseWhitespace value)
  else some value

/-- The `child_will_be_retained` closure.  Takes the already-retained
children (`prev_children`, threaded back since the metadata-merge arm
mutates its last element) and the unvisited ones; yields the updated
retained list and `some child'` when the child is kept. -/
def childWillBeRetained (p : Params) (dpre : Bool) (latest : Option Child)
    (ns : Namespace) (tagName : String) (mode : WhitespaceMinificationMode)
    (prevChildren nextChildren : List Child) (child : Child) :
    List Child × Option Child :=
  match child with
  | .comment data =>
      if p.opts.removeComments then
        (prevChildren,
         if isPreservedComment p.ext data then some (.comment data) else none)
      else (prevChildren, some (.comment data))
  | .element ens etag eattrs ecs econtent esc =>
      if p.opts.mergeMetadataElements &&
          allowElementsToMerge prevChildren.getLast? ens etag eattrs then
        match prevChildren.getLast? with
        | some (.element lns ltag lattrs lcs lct lsc) =>
            (prevChildren.dropLast ++
              [.element lns ltag lattrs (mergeTextChildren lns ltag lcs ens etag ecs)
                lct lsc],
             none)
        | _ => (prevChildren, none)
      else (prevChildren, some (.element ens etag eattrs ecs econtent esc))
  | .text data =>
      if data = "" then (prevChildren, none)
      else if needCollapseWhitespace p.opts && ns = .html &&
          (tagName = "html" || tagName = "head") && allWs data then
        (prevChildren, none)
      else if !dpre && getWhiteSpace ns tagName = .normal &&
          [CollapseWhitespaces.all, .smart, .onlyMetadata, .conservative,
           .advancedConservative].contains p.opts.collapseWhitespaces then
        match minifyTextChild p latest ns tagName mode prevChildren nextChildren data with
        | none => (prevChildren, none)
        | some d => (prevChildren, some (.text d))
      else (prevChildren, some (.text data))
  | c => (prevChildren, some c)

/-- The retention loop of `minify_children` (source lines 1782–1833):
adjacent-Text merge into the last retained child, the retention
predicate, and the empty-metadata filter. -/
def minifyChildrenLoop (p : Params) (dpre : Bool) (latest : Option Child)
    (ns : Namespace) (tagName : String) (mode : WhitespaceMinificationMode)
    (newChildren : List Child) : List Child → List Child
  | [] => newChildren
  | child :: rest =>
      let merged :=
        match child, newChildren.getLast? with
        | .text d, some (.text pd) => (newChildren.dropLast, Child.text (pd ++ d))
        | _, _ => (newChildren, child)
      let newChildren := merged.1
      let child := merged.2
      match childWillBeRetained p dpre latest ns tagName mode newChildren rest child with
      | (newChildren, none) => minifyChildrenLoop p dpre latest ns tagName mode newChildren rest
      | (newChildren, some c) =>
          if p.opts.removeEmptyMetadataElements && isEmptyMetadataElement c then
            let nextElement :=
              match rest.get? 0 with
              | some (.element ns2 tag2 attrs2 _ _ _) => some (ns2, tag2, attrs2)
              | _ =>
                  match rest.get? 1 with
                  | some (.element ns2 tag2 attrs2 _ _ _) => some (ns2, tag2, attrs2)
                  | _ => none
            let needContinue :=
              match nextElement with
              | some (ns2, tag2, attrs2) =>
                  p.opts.mergeMetadataElements &&
                    !allowElementsToMerge (some c) ns2 tag2 attrs2
              | none => true
            if needContinue then
              minifyChildrenLoop p dpre latest ns tagName mode newChildren rest
            else minifyChildrenLoop p dpre latest ns tagName mode (newChildren ++ [c]) rest
          else minifyChildrenLoop p dpre latest ns tagName mode (newChildren ++ [c]) rest

/-- `Minifier::minify_children`.  The source `unreachable!()`s when
`current_element` is unset; that state is never produced by the entry
points, the embedding returns the list unchanged there. -/
def minifyChildren (p : Params) (s : MState) (children : List Child) : List Child :=
  if children.isEmpty then []
  else
    match s.currentElement with
    | none => children
    | some el =>
        let mode := getWhitespaceMinificationForTag p.opts el.ns el.tagName
        minifyChildrenLoop p s.descendantOfPre s.latestElement el.ns el.tagName mode
          [] children

/-! ## The attribute rewriter (`visit_mut_attribute`) -/

/-- `Minifier::is_additional_minifier_attribute`. -/
def isAdditionalMinifierAttribute (ext : Externs) (name : String) : Option MinifierType :=
  match ext.additionalAttributes with
  | some items => (items.find? (fun item => item.1 name)).map (·.2)
  | none => none

/-- `Minifier::is_additional_scripts_content`. -/
def isAdditionalScriptsContent (ext : Externs) (name : String) : Option MinifierType :=
  match ext.additionalScripts with
  | some items => (items.find? (fun item => item.1 name)).map (·.2)
  | none => none

/-- `Minifier::minify_sizes`: split at the last white-space character
(`rsplitn(2, …)`), require a `(`-led media condition, minify it as a
media query list and re-attach the source-size value. -/
def minifySizes (ext : Externs) (value : String) : Option String :=
  let cs := value.toList
  match cs.reverse.findIdx? (fun c => isWs c) with
  | none => none
  | some k =>
      let sourceSizeValue := String.mk (cs.drop (cs.length - k))
      let mediaCondition := String.mk (cs.take (cs.length - 1 - k))
      if !mediaCondition.startsWith "(" then none
      else
        match ext.cssMin mediaCondition .mediaQueryList with
        | some minified => some (minified ++ " " ++ sourceSizeValue)
        | none => none

/-- The `content-security-policy` rewrite of `visit_mut_attribute`:
collapse inner runs per `;` segment, drop a trailing `;`. -/
def minifyCspContent (value : String) : String :=
  let newValues :=
    ((rustTrim value).splitOn ";").map fun seg =>
      String.intercalate " " (((rustTrim seg).splitOn " ").filter (· ≠ ""))
  let v := String.intercalate ";" newValues
  if v.endsWith ";" then v.dropRight 1 else v

/-- The per-item transform of the comma-separated arm. -/
def commaItemTransform (ext : Externs) (name : String) (item : String) : String :=
  if name = "sizes" || name = "imagesizes" then
    let trimmed := rustTrim item
    match minifySizes ext trimmed with
    | some minified => minified
    | none => trimmed
  else if name = "points" then collapseWhitespace (rustTrim item)
  else if name = "exportparts" then String.mk (item.toList.filter (fun c => !isRustTrimWs c))
  else rustTrim item

/-- `visit_mut_attribute` (the `visit_mut_children_with` call on an
attribute is a no-op).  `curEl` is the walker's `current_element`. -/
def visitMutAttribute (p : Params) (curEl : Option ElemInfo) (n : Attribute) : Attribute :=
  match n.value with
  | none => n
  | some value =>
    match curEl with
    | none => n
    | some el =>
      if value = "" then
        if (p.opts.collapseBooleanAttributes && isBooleanAttribute p.ext el n) ||
            (p.opts.normalizeAttributes && isCrossoriginAttribute el n && value = "") then
          { n with value := none }
        else n
      else if el.ns = .html && el.tagName = "iframe" && n.name = "srcdoc" then
        match p.ext.htmlMin value .documentIframeSrcdoc with
        | some minified => { n with value := some minified }
        | none => n
      else if (el.ns = .html || el.ns = .svg) &&
          ["style", "link", "script", "input"].contains el.tagName &&
          n.name = "type" && p.opts.normalizeAttributes then
        { n with value := some (asciiLower (rustTrim value)) }
      else if p.opts.normalizeAttributes && isCrossoriginAttribute el n &&
          asciiLower value = "anonymous" then
        { n with value := none }
      else if p.opts.collapseBooleanAttributes && isBooleanAttribute p.ext el n then
        { n with value := none }
      else if isEventHandlerAttribute n then
        let v :=
          if p.opts.normalizeAttributes then
            let v := rustTrim value
            if (asciiLower (rustTrim v)).startsWith "javascript:" then
              String.mk (v.toList.drop 11)
            else v
          else value
        if p.opts.minifyJs then
          match p.ext.jsMin v false true with
          | some minified => { n with value := some minified }
          | none => n
        else { n with value := some v }
      else if p.opts.normalizeAttributes && el.ns = .html &&
          n.name = "contenteditable" && n.value = some "true" then
        { n with value := some "" }
      else if p.opts.normalizeAttributes && isSemicolonSeparatedAttribute el n then
        { n with value := some (String.intercalate ";"
            ((value.splitOn ";").map (fun v => collapseWhitespace (rustTrim v)))) }
      else if p.opts.normalizeAttributes && n.name = "content" &&
          elementHasAttributeWithValue el "http-equiv" ["content-security-policy"] then
        { n with value := some (minifyCspContent value) }
      else if p.opts.sortSpaceSeparatedAttributeValues &&
          isAttributeValueUnorderedSet el n then
        { n with value := some (String.intercalate " "
            (List.insertionSort (fun a b : String => a ≤ b) (splitWhitespace value))) }
      else if p.opts.normalizeAttributes && isSpaceSeparatedAttribute el n then
        { n with value := some (String.intercalate " " (splitWhitespace value)) }
      else if isCommaSeparatedAttribute el n then
        let v :=
          if p.opts.normalizeAttributes then
            String.intercalate ","
              ((value.splitOn ",").map (commaItemTransform p.ext n.name))
          else value
        if p.opts.minifyCss && n.name = "media" && v ≠ "" then
          match p.ext.cssMin v .mediaQueryList with
          | some minified => { n with value := some minified }
          | none => n
        else { n with value := some v }
      else if isTrimableSeparatedAttribute el n then
        let fallback : Attribute :=
          if p.opts.normalizeAttributes then { n with value := some (rustTrim value) }
          else n
        if p.opts.minifyCss && n.name = "style" && value ≠ "" then
          match p.ext.cssMin (rustTrim value) .listOfDeclarations with
          | some minified => { n with value := some minified }
          | none => fallback
        else if p.opts.minifyJs && isJavascriptUrlElement el then
          if (asciiLower (rustTrim value)).startsWith "javascript:" then
            match p.ext.jsMin (String.mk ((rustTrim value).toList.drop 11)) false true with
            | some minified => { n with value := some ("javascript:" ++ minified) }
            | none => n
          else fallback
        else fallback
      else if (p.ext.additionalAttributes).isSome then
        match isAdditionalMinifierAttribute p.ext n.name with
        | some .jsScript =>
            if p.opts.minifyJs then
              match p.ext.jsMin value false true with
              | some minified => { n with value := some minified }
              | none => n
            else n
        | some .jsModule =>
            if p.opts.minifyJs then
              match p.ext.jsMin value true true with
              | some minified => { n with value := some minified }
              | none => n
            else n
        | some .json =>
            if p.opts.minifyJson then
              match p.ext.jsonMin value with
              | some minified => { n with value := some minified }
              | none => n
            else n
        | some .css =>
            if p.opts.minifyCss then
              match p.ext.cssMin value .listOfDeclarations with
              | some minified => { n with value := some minified }
              | none => n
            else n
        | some .html =>
            match p.ext.htmlMin value .documentIframeSrcdoc with
            | some minified => { n with value := some minified }
            | none => n
        | none => n
      else n

/-! ## The text rewriter (`visit_mut_text`) -/

/-- `Minifier::get_attribute_value`: value of the first attribute with
the given name (even if that value is absent). -/
def getAttributeValue (attrs : List Attribute) (name : String) : Option String :=
  match attrs.find? (fun a => a.name = name) with
  | some a => a.value
  | none => none

/-- The sub-minifier kind `visit_mut_text` chooses for a Text under the
current element (`text_type` in the source); `none` when no dispatch
happens. -/
def computeTextType (p : Params) (curEl : Option ElemInfo) : Option MinifierType :=
  match curEl with
  | none => none
  | some el =>
    if el.tagName = "script" && (p.opts.minifyJson || p.opts.minifyJs) &&
        (el.ns = .html || el.ns = .svg) &&
        !(el.attributes.any (fun a => a.name = "src")) then
      match (getAttributeValue el.attributes "type").map (fun v => rustTrim (asciiLower v)) with
      | some v =>
          if v = "module" && p.opts.minifyJs then some .jsModule
          else if p.opts.minifyJs && isTypeTextJavascript v then some .jsScript
          else if ["application/json", "application/ld+json", "importmap",
                   "speculationrules"].contains v && p.opts.minifyJson then some .json
          else if (p.ext.additionalScripts).isSome then isAdditionalScriptsContent p.ext v
          else none
      | none => if p.opts.minifyJs then some .jsScript else none
    else if el.tagName = "style" && p.opts.minifyCss &&
        (el.ns = .html || el.ns = .svg) then
      let tv :=
        (el.attributes.find? (fun a => a.name = "type" && a.value.isSome)).map
          (fun a => asciiLower (rustTrim (a.value.getD "")))
      if tv = none || tv = some "text/css" then some .css else none
    else none

/-- Run the sub-minifier selected by `computeTextType` (the dispatch
`match` at the end of `visit_mut_text`). -/
def runTextMinifier (ext : Externs) (kind : MinifierType) (data : String) : Option String :=
  match kind with
  | .jsScript => ext.jsMin data false false
  | .jsModule => ext.jsMin data true false
  | .json => ext.jsonMin data
  | .css => ext.cssMin data .stylesheet
  | .html => ext.htmlMin data .conditionalComments

/-- `visit_mut_text`: the `<title>` collapse, then the sub-minifier
dispatch; a failing sub-minifier (`None`) leaves the data unchanged. -/
def visitMutText (p : Params) (curEl : Option ElemInfo) (data : String) : String :=
  if data = "" then data
  else
    let data :=
      match curEl with
      | some el =>
          if el.tagName = "title" && el.ns = .html then rustTrim (collapseWhitespace data)
          else data
      | none => data
    match computeTextType p curEl with
    | none => data
    | some kind =>
        match runTextMinifier p.ext kind data with
        | some minified => minified
        | none => data

/-! ## Comment surgery (`visit_mut_comment`) -/

/-- The conditional-comment rewrite: partition at the first `]>` and the
first `<![` (both via `str::find`), re-minify the middle as HTML, and
reassemble.  A missing delimiter or a failing HTML minifier leaves the
comment intact.  (When the first `<![` precedes the first `]>` the
source's `end_pos - start_pos` underflows; the `Nat` subtraction here
truncates instead, and every theorem below stays in the
`startPos ≤ endPos` regime.) -/
def conditionalCommentRewrite (htmlMin : String → HtmlMinificationMode → Option String)
    (data : String) : String :=
  let cs := data.toList
  match findSubIdx "]>".toList cs with
  | none => data
  | some startPos =>
      match findSubIdx "<![".toList cs with
      | none => data
      | some endPos =>
          let html := String.mk ((cs.drop startPos).take (endPos - startPos))
          match htmlMin html .conditionalComments with
          | none => data
          | some minified =>
              let before := String.mk (cs.take startPos)
              let after := String.mk ((cs.drop endPos).take data.length)
              before ++ minified ++ after

/-- `visit_mut_comment`. -/
def visitMutComment (p : Params) (data : String) : String :=
  if !p.opts.minifyConditionalComments then data
  else if isConditionalComment data && data.length > 0 then
    conditionalCommentRewrite p.ext.htmlMin data
  else data

/-! ## Attribute de-duplication and ordering (`visit_mut_element` tail) -/

/-- The two `push(i); continue` shortcuts of the duplicate-removal loop:
redundant default values and removable empty values. -/
def attrShortcutRemove (p : Params) (ns : Namespace) (tagName : String)
    (a : Attribute) : Bool :=
  match a.value with
  | some v =>
      (p.opts.removeRedundantAttributes ≠ .none &&
        isDefaultAttributeValue p.ext p.opts ns tagName a) ||
      (p.opts.removeEmptyAttributes &&
        ((a.name = "id" && v = "") ||
         ((a.name = "class" || a.name = "style") && v = "") ||
         (isEventHandlerAttribute a && v = "")))
  | none => false

/-- The `remove_list` built by the nested loops of `visit_mut_element`:
a shortcut-removed index `i` is pushed and its inner loop skipped;
otherwise every later index with an equal name is pushed. -/
def buildRemoveList (p : Params) (ns : Namespace) (tagName : String)
    (attrs : List Attribute) : List Nat :=
  (List.range attrs.length).flatMap fun i =>
    match attrs.get? i with
    | none => []
    | some ai =>
        if attrShortcutRemove p ns tagName ai then [i]
        else
          (List.range attrs.length).filter fun j =>
            i < j &&
              match attrs.get? j with
              | some aj => ai.name = aj.name
              | none => false

/-- The `filter_map` that drops the indices collected in `remove_list`. -/
def dedupAttributes (p : Params) (ns : Namespace) (tagName : String)
    (attrs : List Attribute) : List Attribute :=
  let removeList := buildRemoveList p ns tagName attrs
  if removeList.isEmpty then attrs
  else
    attrs.enum.filterMap fun pair =>
      if removeList.contains pair.1 then none else some pair.2

/-- `Option<&usize>` ordering used by the frequency comparator
(`None < Some`). -/
def optNatCmp : Option Nat → Option Nat → Ordering
  | none, none => .eq
  | none, some _ => .lt
  | some _, none => .gt
  | some m, some n => compare m n

/-- `attribute_name_counter.get(name)`. -/
def counterGet (names : List String) (name : String) : Option Nat :=
  let c := names.count name
  if c = 0 then none else some c

/-- The `sort_by` comparator of `visit_mut_element`: frequency
descending, ties by reverse name order. -/
def attrCmp (names : List String) (a b : Attribute) : Ordering :=
  match optNatCmp (counterGet names b.name) (counterGet names a.name) with
  | .eq => compare b.name a.name
  | o => o

/-- The final stable sort (present only when `sort_attributes` produced
a census). -/
def sortAttributesByCounter (counter : Option (List String)) (attrs : List Attribute) :
    List Attribute :=
  match counter with
  | none => attrs
  | some names => List.insertionSort (fun a b => attrCmp names a b ≠ .gt) attrs

/-! ## The walker -/

mutual
/-- The `AttributeNameCounter` census pass (P1): every attribute name in
the tree, with multiplicity. -/
def censusChild : Child → List String
  | .element _ _ attrs children content _ =>
      attrs.map (·.name) ++ censusChildren children ++
        (match content with
         | some cs => censusChildren cs
         | none => [])
  | _ => []
def censusChildren : List Child → List String
  | [] => []
  | c :: cs => censusChild c ++ censusChildren cs
end

/-- `visit_mut_document_type`. -/
def visitMutDocumentType (opts : MinifyOptions) (name publicId systemId : Option String) :
    Child :=
  if opts.forceSetHtml5Doctype then .docType (some "html") none none
  else .docType name publicId systemId

/-- The `latest_element` update at the end of `visit_mut_child`. -/
def updateLatest (opts : MinifyOptions) (s : MState) (c : Child) : MState :=
  if [CollapseWhitespaces.smart, .advancedConservative,
      .onlyMetadata].contains opts.collapseWhitespaces then
    match c with
    | .text _ => { s with latestElement := some c }
    | .element _ _ _ _ _ _ => { s with latestElement := some c }
    | _ => s
  else s

mutual
/-- `visit_mut_child`: dispatch to the node visitor, clear
`current_element`, update `latest_element`. -/
def vChildF (p : Params) (fuel : Nat) (s : MState) (c : Child) : Child × MState :=
  match fuel with
  | 0 => (c, s)
  | fuel + 1 =>
    match c with
    | .element ns tagName attrs children content sc =>
        let r := vElementF p fuel s ns tagName attrs children content sc
        let s := { r.2 with currentElement := none }
        (r.1, updateLatest p.opts s r.1)
    | .text d =>
        let c := Child.text (visitMutText p s.currentElement d)
        (c, updateLatest p.opts { s with currentElement := none } c)
    | .comment d =>
        (Child.comment (visitMutComment p d), { s with currentElement := none })
    | .docType name publicId systemId =>
        (visitMutDocumentType p.opts name publicId systemId,
         { s with currentElement := none })
/-- `visit_mut_element`: set `current_element` and `descendant_of_pre`,
rewrite the child list, recurse (attributes first, then children, then
template content), body-trim, restore, de-duplicate and sort
attributes. -/
def vElementF (p : Params) (fuel : Nat) (s : MState) (ns : Namespace) (tagName : String)
    (attrs : List Attribute) (children : List Child) (content : Option (List Child))
    (sc : Bool) : Child × MState :=
  match fuel with
  | 0 => (.element ns tagName attrs children content sc, s)
  | fuel + 1 =>
    let s := { s with currentElement := some ⟨ns, tagName, attrs, sc⟩ }
    let oldDpre := s.descendantOfPre
    let s :=
      if needCollapseWhitespace p.opts && !oldDpre then
        { s with descendantOfPre := (getWhiteSpace ns tagName = .pre : Bool) }
      else s
    let children := minifyChildren p s children
    let attrs := attrs.map (visitMutAttribute p s.currentElement)
    let r := vChildrenF p fuel s children
    let children := r.1
    let s := r.2
    let contentR :=
      match content with
      | none => (none, s)
      | some frag =>
          let rf := vFragmentF p fuel s frag
          (some rf.1, rf.2)
    let content := contentR.1
    let s := contentR.2
    let children :=
      if ns = .html && tagName = "body" && needCollapseWhitespace p.opts then
        removeLeadingAndTrailingWhitespaces children true true
      else children
    let s :=
      if needCollapseWhitespace p.opts then { s with descendantOfPre := oldDpre } else s
    let attrs := dedupAttributes p ns tagName attrs
    let attrs := sortAttributesByCounter p.counter attrs
    (.element ns tagName attrs children content sc, s)
/-- Sequential visit of a child list, threading the walker state. -/
def vChildrenF (p : Params) (fuel : Nat) (s : MState) (cs : List Child) :
    List Child × MState :=
  match fuel with
  | 0 => (cs, s)
  | fuel + 1 =>
    match cs with
    | [] => ([], s)
    | c :: rest =>
        let r1 := vChildF p fuel s c
        let r2 := vChildrenF p fuel r1.2 rest
        (r1.1 :: r2.1, r2.2)
/-- `visit_mut_document_fragment`: rewrite the child list, then
recurse. -/
def vFragmentF (p : Params) (fuel : Nat) (s : MState) (cs : List Child) :
    List Child × MState :=
  match fuel with
  | 0 => (cs, s)
  | fuel + 1 =>
    let cs := minifyChildren p s cs
    vChildrenF p fuel s cs
end

/-- The retain predicate at the end of `visit_mut_document`:
`!matches!(child, Child::Comment(_) if self.options.remove_comments)`. -/
def documentKeepsChild (opts : MinifyOptions) (c : Child) : Bool :=
  !(match c with
    | .comment _ => opts.removeComments
    | _ => false)

/-- `visit_mut_document`: visit the children, then drop every top-level
comment when `remove_comments` is set (`preserve_comments` is not
consulted here). -/
def vDocumentF (p : Params) (fuel : Nat) (s : MState) (cs : List Child) : List Child :=
  let r := vChildrenF p fuel s cs
  r.1.filter (documentKeepsChild p.opts)

/-- Fuel that dominates the walker recursion depth on a child list. -/
def walkFuel (cs : List Child) : Nat :=
  4 * childrenSz cs + 16

/-- `pub fn minify_document`. -/
def minifyDocument (ext : Externs) (opts : MinifyOptions) (doc : Document) : Document :=
  let counter := if opts.sortAttributes then some (censusChildren doc.children) else none
  let p : Params := ⟨opts, ext, counter⟩
  let s : MState := ⟨none, none, false⟩
  ⟨vDocumentF p (walkFuel doc.children) s doc.children⟩

/-- `pub fn minify_document_fragment`: the context element supplies
`current_element` and the pre-ancestry flag. -/
def minifyDocumentFragment (ext : Externs) (opts : MinifyOptions) (cs : List Child)
    (contextElement : ElemInfo) : List Child :=
  let counter := if opts.sortAttributes then some (censusChildren cs) else none
  let p : Params := ⟨opts, ext, counter⟩
  let s : MState :=
    ⟨some contextElement, none,
     (getWhiteSpace contextElement.ns contextElement.tagName = .pre : Bool)⟩
  (vFragmentF p (walkFuel cs) s cs).1

/-! ## Spec-side definition for the conditional-comment claim -/

/-- Last index at which `pat` occurs (Rust `str::rfind`-style). -/
def findLastSubIdx (pat : List Char) : List Char → Option Nat
  | [] => if pat.isEmpty then some 0 else none
  | c :: cs =>
      match findLastSubIdx pat cs with
      | some k => some (k + 1)
      | none => if pat.isPrefixOf (c :: cs) then some 0 else none

/-- Modelled from the spec's words for comparison with
`conditionalCommentRewrite`: "the comment data is partitioned at the
first occurrence of `]>` and the *last* occurrence of `<![`", then
reassembled as prefix + minified middle + suffix. -/
def conditionalCommentRewriteSpec (htmlMin : String → HtmlMinificationMode → Option String)
    (data : String) : String :=
  let cs := data.toList
  match findSubIdx "]>".toList cs with
  | none => data
  | some startPos =>
      match findLastSubIdx "<![".toList cs with
      | none => data
      | some endPos =>
          let html := String.mk ((cs.drop startPos).take (endPos - startPos))
          match htmlMin html .conditionalComments with
          | none => data
          | some minified =>
              String.mk (cs.take startPos) ++ minified ++ String.mk (cs.drop endPos)

/-! ## Concrete fixtures used by the counterexamples and witnesses -/

/-- External hooks where every sub-minifier fails and no regex option is
set. -/
def extNone : Externs :=
  ⟨fun _ _ _ => none, fun _ _ => none, fun _ => none, fun _ _ => none,
   none, none, none, fun _ _ => none, fun _ _ => none⟩

/-- Every boolean option off, `collapse_whitespaces = None`,
`remove_redundant_attributes = None`. -/
def optsOff : MinifyOptions :=
  ⟨false, .none, false, false, false, false, .none, false, false, false, false, false,
   false, false, false⟩

/-- `extNone` plus a `preserve_comments` regex matching everything. -/
def extPresAll : Externs := { extNone with preserveComments := some [fun _ => true] }

/-- `optsOff` plus `remove_comments`. -/
def optsRC : MinifyOptions := { optsOff with removeComments := true }

/-- `optsOff` plus `remove_empty_attributes`. -/
def optsRE : MinifyOptions := { optsOff with removeEmptyAttributes := true }

/-- `optsOff` plus `minify_conditional_comments`. -/
def optsCC : MinifyOptions := { optsOff with minifyConditionalComments := true }

/-- `optsOff` plus JS minification. -/
def optsJs : MinifyOptions := { optsOff with minifyJs := true }

/-- `extNone` with an inner-HTML minifier that rewrites everything to
`"M"`. -/
def extM : Externs := { extNone with htmlMin := fun _ _ => some "M" }

/-- `<title> </title>` as a document: the input on which one minify pass
is not a fixed point. -/
def docTitleSpace : Document :=
  ⟨[.element .html "title" [] [.text " "] none false]⟩

/-- Observation used to separate the two sides of the idempotence
counterexample: the number of children of the single title element. -/
def titleChildCount (doc : Document) : Nat :=
  match doc.children with
  | [.element _ _ _ cs _ _] => cs.length
  | _ => 0

/-! ## Theorems -/

/-- C1 (counterexample): with every option off, minifying
`<pre><title> x </title></pre>` rewrites the Text `" x "` — a descendant
of a `Pre` white-space element — to `"x"` (the unconditional `<title>`
whitespace collapse of `visit_mut_text`), so the Text is not
byte-identical to its input for every options value. -/
theorem C1_counterexample :
    minifyDocument extNone optsOff
      ⟨[.element .html "pre" []
          [.element .html "title" [] [.text " x "] none false] none false]⟩ =
      ⟨[.element .html "pre" []
          [.element .html "title" [] [.text "x"] none false] none false]⟩ ∧
    (" x " : String) ≠ "x" :=
  ⟨rfl, by decide⟩

/-- C1 (amended): the children minifier itself never trims or collapses
a Text that sits under a `Pre` white-space parent or inside a
`Pre`-ancestor (`descendant_of_pre`): the retention step either drops
the node whole (empty text, or the all-whitespace `html`/`head` rule) or
keeps its data byte-identical.  Text can still be rewritten by the
text-level pass (`<title>` collapse, sub-minifiers) or concatenated by
merges, as the counterexample shows. -/
theorem C1_pre_descendant_text_not_rewritten (p : Params) (dpre : Bool)
    (latest : Option Child) (ns : Namespace) (tagName : String)
    (mode : WhitespaceMinificationMode) (prev next : List Child) (data : String)
    (h : dpre = true ∨ getWhiteSpace ns tagName = .pre) :
    childWillBeRetained p dpre latest ns tagName mode prev next (.text data) =
      (prev, none) ∨
    childWillBeRetained p dpre latest ns tagName mode prev next (.text data) =
      (prev, some (.text data)) := by
  by_cases hd : data = ""
  · left
    simp [childWillBeRetained, hd]
  · by_cases h2 : (needCollapseWhitespace p.opts && decide (ns = Namespace.html) &&
        (decide (tagName = "html") || decide (tagName = "head")) && allWs data) = true
    · left
      simp [childWillBeRetained, hd, h2]
    · right
      rcases h with h | h
      · subst h
        simp [childWillBeRetained, hd, h2]
      · simp [childWillBeRetained, hd, h2, h]

/-- C1 (witness for the amended theorem). -/
theorem C1_witness :
    childWillBeRetained ⟨optsOff, extNone, none⟩ true none .html "div" ⟨false, false⟩
      [] [] (.text " x ") = ([], none) ∨
    childWillBeRetained ⟨optsOff, extNone, none⟩ true none .html "div" ⟨false, false⟩
      [] [] (.text " x ") = ([], some (.text " x ")) :=
  C1_pre_descendant_text_not_rewritten ⟨optsOff, extNone, none⟩ true none .html "div"
    ⟨false, false⟩ [] [] " x " (Or.inl rfl)

/-- C2 (confirmed): whenever `visit_mut_text` dispatches a Text to a
sub-minifier (JS script, JS module, JSON, CSS, inner HTML) and that
sub-minifier fails (`None`), the Text's data is returned exactly as it
was; the rewrite itself is total and has no error channel to the
caller. -/
theorem C2_subminifier_failure_keeps_text (p : Params) (curEl : Option ElemInfo)
    (data : String) (kind : MinifierType)
    (h : computeTextType p curEl = some kind)
    (hfail : runTextMinifier p.ext kind data = none) :
    visitMutText p curEl data = data := by
  by_cases hd : data = ""
  · simp [visitMutText, hd]
  · cases curEl with
    | none => simp [computeTextType] at h
    | some el =>
        by_cases ht : el.tagName = "title" ∧ el.ns = .html
        · obtain ⟨ht1, ht2⟩ := ht
          simp [computeTextType, ht1, ht2] at h
        · have htf : (el.tagName = "title" && el.ns = .html) = false := by
            rcases not_and_or.mp ht with hne | hne <;> simp [hne]
          simp [visitMutText, hd, htf, h, hfail]

/-- C2 (witness): a JS script Text whose JS minifier fails is left
unchanged. -/
theorem C2_witness :
    visitMutText ⟨optsJs, extNone, none⟩ (some ⟨.html, "script", [], false⟩)
      "var x = 1;" = "var x = 1;" :=
  C2_subminifier_failure_keeps_text ⟨optsJs, extNone, none⟩
    (some ⟨.html, "script", [], false⟩) "var x = 1;" .jsScript rfl rfl

/-- C3 (code bug): minification is not idempotent even with every option
off.  On `<title> </title>` the first pass collapses the title Text to
`""` but keeps the node; only a second pass removes the now-empty Text,
so `minify (minify d) ≠ minify d`. -/
theorem C3_minify_not_idempotent :
    minifyDocument extNone optsOff docTitleSpace =
      ⟨[.element .html "title" [] [.text ""] none false]⟩ ∧
    minifyDocument extNone optsOff (minifyDocument extNone optsOff docTitleSpace) =
      ⟨[.element .html "title" [] [] none false]⟩ ∧
    (minifyDocument extNone optsOff (minifyDocument extNone optsOff docTitleSpace) ≠
      minifyDocument extNone optsOff docTitleSpace) :=
  ⟨rfl, rfl, fun h => absurd (congrArg titleChildCount h) (by decide)⟩

/-- C4 (counterexample): with `collapse_whitespaces = None` and every
other option off, the non-empty Text `" a "` under `<title>` is still
rewritten to `"a"` by the unconditional `<title>` collapse of
`visit_mut_text`, so not every Text is left unchanged. -/
theorem C4_counterexample :
    optsOff.collapseWhitespaces = .none ∧
    minifyDocument extNone optsOff
      ⟨[.element .html "title" [] [.text " a "] none false]⟩ =
      ⟨[.element .html "title" [] [.text "a"] none false]⟩ ∧
    (" a " : String) ≠ "a" :=
  ⟨rfl, rfl, by decide⟩

/-- C4 (amended): under `collapse_whitespaces = None` the *children
minifier* keeps every non-empty Text child byte-identical and drops
exactly the fully-empty ones; Text data can still change through the
text-level pass (`<title>` collapse, sub-minifier dispatch) and through
adjacent-Text or metadata merges. -/
theorem C4_none_policy_children_keep_text (p : Params) (dpre : Bool)
    (latest : Option Child) (ns : Namespace) (tagName : String)
    (mode : WhitespaceMinificationMode) (prev next : List Child) (data : String)
    (h : p.opts.collapseWhitespaces = .none) :
    childWillBeRetained p dpre latest ns tagName mode prev next (.text data) =
      (prev, if data = "" then none else some (.text data)) := by
  by_cases hd : data = ""
  · simp [childWillBeRetained, hd]
  · simp [childWillBeRetained, hd, needCollapseWhitespace, h]

/-- C4 (witness for the amended theorem). -/
theorem C4_witness :
    childWillBeRetained ⟨optsOff, extNone, none⟩ false none .html "p" ⟨false, false⟩
      [] [] (.text "abc") = ([], some (.text "abc")) := by
  simpa using
    C4_none_policy_children_keep_text ⟨optsOff, extNone, none⟩ false none .html "p"
      ⟨false, false⟩ [] [] "abc" rfl

/-- C5 (counterexample): a top-level Document comment is removed when
`remove_comments` is set even though a `preserve_comments` regex matches
it, because `visit_mut_document`'s final retain ignores
`preserve_comments`. -/
theorem C5_counterexample :
    minifyDocument extPresAll optsRC ⟨[.comment "c"]⟩ = ⟨[]⟩ ∧
    optsRC.removeComments = true ∧
    isPreservedComment extPresAll "c" = true :=
  ⟨rfl, rfl, rfl⟩

/-- C5 (amended): inside `minify_children` a Comment child is retained,
with its data unchanged, exactly when `remove_comments` is off or a
`preserve_comments` regex matches; but a top-level Document child is
kept by `visit_mut_document`'s retain exactly when `remove_comments` is
off, regardless of `preserve_comments`.  (Comments inside merged
metadata elements are additionally discarded by the merge.) -/
theorem C5_comment_retention :
    (∀ (p : Params) (dpre : Bool) (latest : Option Child) (ns : Namespace)
        (tagName : String) (mode : WhitespaceMinificationMode)
        (prev next : List Child) (data : String),
      childWillBeRetained p dpre latest ns tagName mode prev next (.comment data) =
        (prev,
         if p.opts.removeComments && !isPreservedComment p.ext data then none
         else some (.comment data))) ∧
    (∀ (opts : MinifyOptions) (data : String),
      documentKeepsChild opts (.comment data) = !opts.removeComments) := by
  constructor
  · intro p dpre latest ns tagName mode prev next data
    by_cases hc : p.opts.removeComments <;>
      by_cases hp : isPreservedComment p.ext data <;>
        simp [childWillBeRetained, hc, hp]
  · intro opts data
    rfl

/-- C6 (counterexample): on the comment
`[if IE]>a<![x]>b<![endif]` (with a conditional-comment minifier that
returns `"M"`), the code partitions at the *first* `<![` (index 9, the
inner `<![x]`), not the last one (`<![endif]`, index 16) as the claim
states: the code keeps `<![x]>b<![endif]` as the suffix while the claim
predicts `<![endif]`. -/
theorem C6_counterexample :
    visitMutComment ⟨optsCC, extM, none⟩ "[if IE]>a<![x]>b<![endif]" =
      "[if IEM<![x]>b<![endif]" ∧
    conditionalCommentRewriteSpec extM.htmlMin "[if IE]>a<![x]>b<![endif]" =
      "[if IEM<![endif]" ∧
    ("[if IEM<![x]>b<![endif]" : String) ≠ "[if IEM<![endif]" :=
  ⟨rfl, rfl, by decide⟩

/-- C6 (amended): when `minify_conditional_comments` is on and the
comment matches a conditional regex, the data is partitioned at the
*first* occurrence of `]>` and the *first* occurrence of `<![`
(both via `str::find`); the middle (which starts with the `]>`) is
re-minified as HTML and the comment reassembled as
prefix ++ minified ++ suffix.  Comments missing either delimiter are
left intact, and `findSubIdx` really is the first occurrence. -/
theorem C6_conditional_comment_first_partition :
    (∀ (p : Params) (data : String) (startPos endPos : Nat) (m : String),
      p.opts.minifyConditionalComments = true →
      isConditionalComment data = true →
      0 < data.length →
      findSubIdx "]>".toList data.toList = some startPos →
      findSubIdx "<![".toList data.toList = some endPos →
      startPos ≤ endPos →
      p.ext.htmlMin (String.mk ((data.toList.drop startPos).take (endPos - startPos)))
        .conditionalComments = some m →
      visitMutComment p data =
        String.mk (data.toList.take startPos) ++ m ++
          String.mk (data.toList.drop endPos)) ∧
    (∀ (p : Params) (data : String),
      (findSubIdx "]>".toList data.toList = none ∨
       findSubIdx "<![".toList data.toList = none) →
      visitMutComment p data = data) ∧
    (∀ (pat l : List Char) (k : Nat),
      findSubIdx pat l = some k →
      pat.isPrefixOf (l.drop k) = true ∧
        ∀ i, i < k → pat.isPrefixOf (l.drop i) = false) := by
  refine ⟨?_, ?_, ?_⟩
  · intro p data startPos endPos m hcc hic hlen hstart hend _ hm
    simp at hstart hend hm
    simp [visitMutComment, conditionalCommentRewrite, hcc, hic, hlen, hstart, hend, hm]
    congr 1
    exact congrArg String.mk
      (List.take_of_length_le
        (by rw [List.length_drop]; exact le_trans (Nat.sub_le _ _) (le_of_eq rfl)))
  · intro p data h
    by_cases hcc : p.opts.minifyConditionalComments
    · by_cases hic : (isConditionalComment data && decide (0 < data.length)) = true
      · rcases h with h | h
        · simp at h
          simp [visitMutComment, conditionalCommentRewrite, hcc, hic, h]
        · simp at h
          cases hs : findSubIdx ("]>".toList) data.toList <;> simp at hs <;>
            simp [visitMutComment, conditionalCommentRewrite, hcc, hic, hs, h]
      · simp only [visitMutComment, hcc, Bool.not_true, Bool.false_eq_true, if_false]
        rw [if_neg]
        simp only [Bool.and_eq_true] at hic
        exact fun hh => hic (by simpa using hh)
    · simp [visitMutComment, hcc]
  · intro pat l
    induction l with
    | nil =>
        intro k hk
        by_cases hp : pat.isEmpty
        · rw [List.isEmpty_iff] at hp
          subst hp
          simp [findSubIdx] at hk
          subst hk
          exact ⟨rfl, fun i hi => absurd hi (Nat.not_lt_zero i)⟩
        · simp [findSubIdx, hp] at hk
    | cons c cs ih =>
        intro k hk
        by_cases hp : pat.isPrefixOf (c :: cs)
        · rw [findSubIdx, if_pos hp] at hk
          injection hk with hk
          subst hk
          exact ⟨hp, fun i hi => absurd hi (Nat.not_lt_zero i)⟩
        · rw [findSubIdx, if_neg hp] at hk
          obtain ⟨k', hk', rfl⟩ := Option.map_eq_some'.mp hk
          obtain ⟨h1, h2⟩ := ih k' hk'
          refine ⟨by simpa [List.drop_succ_cons] using h1, ?_⟩
          intro i hi
          cases i with
          | zero => simpa using Bool.eq_false_iff.mpr hp
          | succ j =>
              rw [List.drop_succ_cons]
              exact h2 j (Nat.lt_of_succ_lt_succ hi)

/-- C6 (witness for the amended theorem). -/
theorem C6_witness :
    visitMutComment ⟨optsCC, extM, none⟩ "[if IE]>a<![x]>b<![endif]" =
      "[if IE" ++ "M" ++ "<![x]>b<![endif]" :=
  C6_conditional_comment_first_partition.1 ⟨optsCC, extM, none⟩
    "[if IE]>a<![x]>b<![endif]" 6 9 "M" rfl rfl (by decide) rfl rfl (by decide) rfl

/-- C7 (counterexample): for an SVG `script` element with
`collapse_whitespaces = None` the computed mode has `trim = true`
(`get_whitespace_minification_for_tag` hard-codes `trim: true` in the
SVG script/style arm), refuting "trim = true exactly when the policy is
neither None nor OnlyMetadata". -/
theorem C7_counterexample :
    (getWhitespaceMinificationForTag optsOff .svg "script").trim = true ∧
    optsOff.collapseWhitespaces = .none ∧
    ¬ (∀ (opts : MinifyOptions) (ns : Namespace) (tagName : String),
        (ns = .html ∨ ns = .svg) → (tagName = "script" ∨ tagName = "style") →
        (getWhitespaceMinificationForTag opts ns tagName).collapse = false ∧
        ((getWhitespaceMinificationForTag opts ns tagName).trim = true ↔
          (opts.collapseWhitespaces ≠ .none ∧ opts.collapseWhitespaces ≠ .onlyMetadata))) :=
  ⟨rfl, rfl,
   fun h => (((h optsOff .svg "script" (Or.inr rfl) (Or.inl rfl)).2.mp rfl).1) rfl⟩

/-- C7 (amended): for HTML `script`/`style` the mode is
`collapse = false` with `trim` exactly when the policy is neither `None`
nor `OnlyMetadata`; for SVG `script`/`style` it is `collapse = false`
with `trim = true` unconditionally. -/
theorem C7_whitespace_mode_for_script_style (opts : MinifyOptions) :
    getWhitespaceMinificationForTag opts .html "script" =
      ⟨!(opts.collapseWhitespaces = .none ∨
         opts.collapseWhitespaces = .onlyMetadata : Bool), false⟩ ∧
    getWhitespaceMinificationForTag opts .html "style" =
      ⟨!(opts.collapseWhitespaces = .none ∨
         opts.collapseWhitespaces = .onlyMetadata : Bool), false⟩ ∧
    getWhitespaceMinificationForTag opts .svg "script" = ⟨true, false⟩ ∧
    getWhitespaceMinificationForTag opts .svg "style" = ⟨true, false⟩ :=
  ⟨rfl, rfl, rfl, rfl⟩

/-- C8 (counterexample): merging `<script>a</script>` with
`<script>b</script>` yields the single Text `"a;b;"` — a `;` is appended
after *every* retained chunk, including the last — not `"a;b"` with a
`;` only between the two bodies. -/
theorem C8_counterexample :
    mergeTextChildren .html "script" [.text "a"] .html "script" [.text "b"] =
      [.text "a;b;"] ∧
    ("a;b;" : String) ≠ "a;b" :=
  ⟨rfl, by decide⟩

/-- C10 (confirmed): `visit_mut_attribute` leaves an attribute whose
value is absent (`None`) completely unchanged: prefix, name and the
absence of a value are preserved and no rewrite rule runs. -/
theorem C10_absent_value_attribute_unchanged (p : Params) (curEl : Option ElemInfo)
    (a : Attribute) (h : a.value = none) :
    visitMutAttribute p curEl a = a := by
  simp only [visitMutAttribute, h]

/-- C10 (witness). -/
theorem C10_witness :
    visitMutAttribute ⟨optsOff, extNone, none⟩ (some ⟨.html, "input", [], false⟩)
      ⟨none, "disabled", none⟩ = ⟨none, "disabled", none⟩ :=
  C10_absent_value_attribute_unchanged ⟨optsOff, extNone, none⟩
    (some ⟨.html, "input", [], false⟩) ⟨none, "disabled", none⟩ rfl

/-- `foldl` over `++` shifts the accumulator out front. -/
theorem stringFoldlAppendShift (xs : List String) (a : String) :
    xs.foldl (· ++ ·) a = a ++ String.join xs := by
  induction xs generalizing a with
  | nil => exact (String.append_empty a).symm
  | cons x xs ih =>
      show xs.foldl (· ++ ·) (a ++ x) = a ++ String.join (x :: xs)
      rw [ih (a ++ x)]
      show a ++ x ++ String.join xs = a ++ xs.foldl (· ++ ·) ("" ++ x)
      rw [ih ("" ++ x), String.empty_append, String.append_assoc]

theorem stringJoin_cons (x : String) (xs : List String) :
    String.join (x :: xs) = x ++ String.join xs := by
  show xs.foldl (· ++ ·) ("" ++ x) = x ++ String.join xs
  rw [stringFoldlAppendShift, String.empty_append]

/-- The fold of `merge_text_children` appends, after each retained
non-empty Text chunk, the (possibly empty) script separator. -/
theorem mergeFoldlJoin (b : Bool) (l : List Child) (acc : String) :
    l.foldl
      (fun acc c =>
        match c with
        | Child.text d => if d.length > 0 then acc ++ d ++ (if b then ";" else "") else acc
        | _ => acc) acc =
    acc ++ String.join
      ((l.filterMap fun c =>
          match c with
          | Child.text d => if d.length > 0 then some d else none
          | _ => none).map
        (fun t => t ++ (if b then ";" else ""))) := by
  induction l generalizing acc with
  | nil => exact (String.append_empty acc).symm
  | cons c cs ih =>
      cases c with
      | text d =>
          by_cases hd : d.length > 0
          · simp only [List.foldl_cons, List.filterMap_cons, hd, if_pos, List.map_cons,
              stringJoin_cons, ih]
            simp [String.append_assoc]
          · simp only [List.foldl_cons, List.filterMap_cons, hd, if_neg, ih]
            simp [hd]
      | comment d => simp [ih]
      | docType n pid sid => simp [ih]
      | element ns tag attrs ecs content sc => simp [ih]

/-- `go`-level form of "a `;` after every chunk equals
intercalation plus a trailing `;`". -/
theorem intercalateGoSemi (bs : List String) (acc : String) :
    String.intercalate.go acc ";" bs ++ ";" =
      acc ++ ";" ++ String.join (bs.map (fun u => u ++ ";")) := by
  induction bs generalizing acc with
  | nil => simp [String.intercalate.go, String.join]
  | cons b bs ih =>
      show String.intercalate.go (acc ++ ";" ++ b) ";" bs ++ ";" = _
      rw [ih (acc ++ ";" ++ b), List.map_cons, stringJoin_cons]
      rw [String.append_assoc (acc ++ ";") b ";", String.append_assoc,
        String.append_assoc]

/-- C8 (amended): the merged children are the single Text obtained by
concatenating every non-empty Text child of both elements, with — for
script merges — a `;` appended after *every* chunk (including the
last), not only between the two bodies; the result is empty when that
concatenation is empty. -/
theorem C8_merge_text_children_formula :
    (∀ (lns rns : Namespace) (ltag rtag : String) (lcs rcs : List Child),
      mergeTextChildren lns ltag lcs rns rtag rcs =
        (let isScriptTag := (lns = .html || lns = .svg) && ltag = "script" &&
            (rns = .html || rns = .svg) && rtag = "script"
         let ts := (lcs ++ rcs).filterMap fun c =>
           match c with
           | Child.text d => if d.length > 0 then some d else none
           | _ => none
         let d := String.join (ts.map fun t => t ++ (if isScriptTag then ";" else ""))
         if d = "" then [] else [.text d])) ∧
    (∀ (t : String) (ts : List String),
      String.join ((t :: ts).map (fun u => u ++ ";")) =
        String.intercalate ";" (t :: ts) ++ ";") := by
  constructor
  · intro lns rns ltag rtag lcs rcs
    simp only [mergeTextChildren]
    rw [mergeFoldlJoin, String.empty_append]
  · intro t ts
    rw [List.map_cons, stringJoin_cons]
    show _ = String.intercalate.go t ";" ts ++ ";"
    rw [intercalateGoSemi]

/-- Index pairs in `enumFrom` are strictly increasing. -/
theorem enumFrom_pairwise_fst (n : Nat) (l : List Attribute) :
    List.Pairwise (fun x y : Nat × Attribute => x.1 < y.1) (List.enumFrom n l) := by
  induction l generalizing n with
  | nil => exact List.Pairwise.nil
  | cons a l ih =>
      refine List.Pairwise.cons ?_ (ih (n + 1))
      intro q hq
      exact Nat.lt_of_succ_le (List.mem_enumFrom hq).1

/-- A shortcut-removed index is in the `remove_list`. -/
theorem mem_buildRemoveList_of_shortcut (p : Params) (ns : Namespace) (tagName : String)
    (attrs : List Attribute) (i : Nat) (ai : Attribute)
    (hget : attrs.get? i = some ai)
    (hshort : attrShortcutRemove p ns tagName ai = true) :
    i ∈ buildRemoveList p ns tagName attrs := by
  have hlen : i < attrs.length := (List.get?_eq_some.mp hget).1
  refine List.mem_flatMap.mpr ⟨i, List.mem_range.mpr hlen, ?_⟩
  simp only [hget]
  rw [if_pos hshort]
  exact List.mem_singleton_self i

/-- A later duplicate of a non-shortcut attribute is in the
`remove_list`. -/
theorem mem_buildRemoveList_of_dup (p : Params) (ns : Namespace) (tagName : String)
    (attrs : List Attribute) (i j : Nat) (ai aj : Attribute)
    (hij : i < j)
    (hgeti : attrs.get? i = some ai) (hgetj : attrs.get? j = some aj)
    (hshort : attrShortcutRemove p ns tagName ai = false)
    (hname : ai.name = aj.name) :
    j ∈ buildRemoveList p ns tagName attrs := by
  have hleni : i < attrs.length := (List.get?_eq_some.mp hgeti).1
  have hlenj : j < attrs.length := (List.get?_eq_some.mp hgetj).1
  refine List.mem_flatMap.mpr ⟨i, List.mem_range.mpr hleni, ?_⟩
  simp only [hgeti]
  rw [if_neg (by rw [hshort]; exact Bool.false_ne_true)]
  refine List.mem_filter.mpr ⟨List.mem_range.mpr hlenj, ?_⟩
  simp only [hgetj]
  simp [hij, hname]

/-- `dedupAttributes` as one `filterMap` over the indexed attributes
(also covering the `remove_list.is_empty()` fast path). -/
theorem dedupAttributes_eq_filterMap (p : Params) (ns : Namespace) (tagName : String)
    (attrs : List Attribute) :
    dedupAttributes p ns tagName attrs =
      attrs.enum.filterMap fun pair =>
        if (buildRemoveList p ns tagName attrs).contains pair.1 then none
        else some pair.2 := by
  unfold dedupAttributes
  by_cases hre : (buildRemoveList p ns tagName attrs).isEmpty
  · rw [if_pos hre]
    rw [List.isEmpty_iff] at hre
    have : (fun pair : Nat × Attribute =>
        if (buildRemoveList p ns tagName attrs).contains pair.1 then none
        else some pair.2) = (some ∘ fun pair : Nat × Attribute => pair.2) := by
      funext pair
      rw [hre]
      rfl
    rw [this, List.filterMap_eq_map]
    exact (List.enum_map_snd attrs).symm
  · rw [if_neg hre]

/-- After duplicate removal no two surviving attributes share a name. -/
theorem dedup_pairwise_names (p : Params) (ns : Namespace) (tagName : String)
    (attrs : List Attribute) :
    List.Pairwise (fun a b : Attribute => a.name ≠ b.name)
      (dedupAttributes p ns tagName attrs) := by
  rw [dedupAttributes_eq_filterMap, List.pairwise_filterMap]
  have henum : List.Pairwise (fun x y : Nat × Attribute => x.1 < y.1) attrs.enum :=
    enumFrom_pairwise_fst 0 attrs
  refine henum.imp_of_mem ?_
  intro pa pb hpa hpb hlt b hb b' hb'
  by_cases hca : (buildRemoveList p ns tagName attrs).contains pa.1
  · rw [if_pos hca] at hb
    exact absurd hb (by simp)
  · rw [if_neg hca] at hb
    by_cases hcb : (buildRemoveList p ns tagName attrs).contains pb.1
    · rw [if_pos hcb] at hb'
      exact absurd hb' (by simp)
    · rw [if_neg hcb] at hb'
      have hb : b = pa.2 := by simpa using hb.symm
      have hb' : b' = pb.2 := by simpa using hb'.symm
      subst hb hb'
      have hgeta : attrs.get? pa.1 = some pa.2 := by
        obtain ⟨h1, h2⟩ := List.mem_enum hpa
        rw [List.get?_eq_getElem?, List.getElem?_eq_getElem h1, h2]
      have hgetb : attrs.get? pb.1 = some pb.2 := by
        obtain ⟨h1, h2⟩ := List.mem_enum hpb
        rw [List.get?_eq_getElem?, List.getElem?_eq_getElem h1, h2]
      intro heq
      by_cases hs : attrShortcutRemove p ns tagName pa.2 = true
      · exact hca (List.elem_iff.mpr
          (mem_buildRemoveList_of_shortcut p ns tagName attrs pa.1 pa.2 hgeta hs))
      · exact hcb (List.elem_iff.mpr
          (mem_buildRemoveList_of_dup p ns tagName attrs pa.1 pb.1 pa.2 pb.2 hlt
            hgeta hgetb (Bool.eq_false_iff.mpr hs) heq))

/-- C9 (amended): after the duplicate-removal pass and the optional
frequency sort of `visit_mut_element`, no element carries two attributes
with the same (prefix, name) — indeed no two survivors even share a
name.  The claim's mechanism clause is corrected by the counterexample:
a later duplicate survives when every earlier equal-named attribute was
itself removed by the redundant/empty-value shortcuts. -/
theorem C9_no_duplicate_attributes (p : Params) (ns : Namespace) (tagName : String)
    (counter : Option (List String)) (attrs : List Attribute) :
    List.Pairwise (fun a b : Attribute => (a.pfx, a.name) ≠ (b.pfx, b.name))
      (sortAttributesByCounter counter (dedupAttributes p ns tagName attrs)) := by
  have hd : List.Pairwise (fun a b : Attribute => (a.pfx, a.name) ≠ (b.pfx, b.name))
      (dedupAttributes p ns tagName attrs) :=
    (dedup_pairwise_names p ns tagName attrs).imp fun h hp => h (congrArg Prod.snd hp)
  have hsym : ∀ {x y : Attribute},
      (x.pfx, x.name) ≠ (y.pfx, y.name) → (y.pfx, y.name) ≠ (x.pfx, x.name) :=
    fun h => h.symm
  cases counter with
  | none => exact hd
  | some names =>
      exact ((List.perm_insertionSort _ _).pairwise_iff hsym).mpr hd

/-- C9 (counterexample for the mechanism clause): with
`remove_empty_attributes` on, the input `[id="", id="x"]` has the equal-
named pair (0, 1), yet the attribute at the later position survives —
position 0 is removed by the empty-value shortcut, which skips its
duplicate scan. -/
theorem C9_counterexample :
    dedupAttributes ⟨optsRE, extNone, none⟩ .html "div"
      [⟨none, "id", some ""⟩, ⟨none, "id", some "x"⟩] =
      [⟨none, "id", some "x"⟩] :=
  rfl
